import Mathlib

set_option linter.unusedVariables false

/-! Shallow embedding of the HubSpot-Telegram reminder bot (`main.py`):
property values, the eligibility predicates at their three decision sites,
the reminder loop, the recovery scan, the business-hours clock, and a
small-step process model of the webhook / recovery / task lifecycle. -/

/-- A Python value as it reaches the property checks of `main.py`:
`None`, a `bool`, a `str` or an `int`. -/
inductive PValue
  | pNone
  | pBool (b : Bool)
  | pStr (s : String)
  | pInt (n : Int)
deriving DecidableEq, Repr

/-- Python truthiness `bool(v)` for the modelled values. -/
def pyTruthy : PValue → Bool
  | .pNone => false
  | .pBool b => b
  | .pStr s => s != ""
  | .pInt n => n != 0

/-- Python `str.strip()` on the character list, leading side. -/
def py_lstrip : List Char → List Char
  | [] => []
  | c :: cs => if c.isWhitespace then py_lstrip cs else c :: cs

def py_strip_list (l : List Char) : List Char :=
  (py_lstrip (py_lstrip l).reverse).reverse

/-- Python `s.strip()`: drop leading and trailing whitespace. -/
def py_strip (s : String) : String := String.mk (py_strip_list s.data)

/-- Python `s.lower()` (ASCII case mapping). -/
def py_lower (s : String) : String := String.mk (s.data.map Char.toLower)

/-- Python `str(v)` for the modelled values. -/
def pyStr : PValue → String
  | .pNone => "None"
  | .pBool true => "True"
  | .pBool false => "False"
  | .pStr s => s
  | .pInt n => toString n

/-- `main.py` lines 931-936 (`hubspot_webhook`): the distribution-flag gate.
`should_post = flag_value is True` for a bool, `flag_value.strip().lower() == "true"`
for a str, `False` otherwise. -/
def webhook_should_post : PValue → Bool
  | .pBool b => b
  | .pStr s => py_lower (py_strip s) == "true"
  | _ => false

/-- `main.py` lines 632-637 (`schedule_owner_reminder`): the distribution-flag
re-check at wake time; same shape as the webhook gate. -/
def loop_should_continue : PValue → Bool
  | .pBool b => b
  | .pStr s => py_lower (py_strip s) == "true"
  | _ => false

/-- `main.py` lines 323-328 (`restore_reminders_from_sheets`): the
distribution-flag check for a recovery candidate. -/
def restore_should_remind : PValue → Bool
  | .pBool b => b
  | .pStr s => py_lower (py_strip s) == "true"
  | _ => false

/-- `main.py` lines 944-951 (`hubspot_webhook`): is the main-practice field set.
`None` is unset, a str counts via `bool(mp_value.strip())`, any other value
via `bool(mp_value)`. -/
def webhook_mp_is_set : PValue → Bool
  | .pNone => false
  | .pStr s => py_strip s != ""
  | v => pyTruthy v

/-- `main.py` lines 644-652 (`schedule_owner_reminder`): the main-practice
re-check at wake time. -/
def loop_is_set : PValue → Bool
  | .pNone => false
  | .pStr s => py_strip s != ""
  | v => pyTruthy v

/-- `main.py` lines 336-343 (`restore_reminders_from_sheets`): the
main-practice check for a recovery candidate. -/
def restore_mp_is_set : PValue → Bool
  | .pNone => false
  | .pStr s => py_strip s != ""
  | v => pyTruthy v

/-- Gating-flag semantics stated from the spec's words, for comparison with
the three code sites: true iff the value is the boolean `True` or a string
equal to `"true"` after trimming and lowercasing; any other type is false. -/
def spec_gating_true (v : PValue) : Bool :=
  (v == .pBool true) ||
    (match v with
     | .pStr s => py_lower (py_strip s) == "true"
     | _ => false)

/-- Terminal-field semantics stated from the spec's words, for comparison with
the three code sites: set iff the value is a string that is non-empty after
trimming, or a non-None non-string truthy value. -/
def spec_terminal_set (v : PValue) : Bool :=
  (match v with
   | .pStr s => py_strip s != ""
   | _ => false) ||
    (match v with
     | .pNone => false
     | .pStr _ => false
     | w => pyTruthy w)

/-- `main.py` lines 470-477 (`render_owner_name`); the owners map (HubSpot
owners cache) is abstracted as a lookup function. -/
def render_owner_name (ownersMap : String → Option String) (rawOwnerId : PValue) : String :=
  match rawOwnerId with
  | .pNone => ""
  | v =>
    let ownerIdStr := py_strip (pyStr v)
    if ownerIdStr = "" then "" else (ownersMap ownerIdStr).getD ownerIdStr

/-- Python `str.isdigit` restricted to ASCII content. -/
def str_isdigit (s : String) : Bool := s != "" && s.all Char.isDigit

/-- Python `int(s)` on a digit string (best effort for the embedding). -/
def py_int_of_str (s : String) : Int := ((s.toNat?).getD 0 : Nat)

/-- The `tg://user` anchor built at `main.py` lines 525-528. -/
def mention_link (userId : Int) (display : String) : String :=
  "<a href=\"tg://user?id=" ++ toString userId ++ "\">" ++ display ++ "</a>"

/-- `main.py` lines 518-533 (`render_owner_mention`); the owner-mentions map
is abstracted as a lookup function. Note Python's `isinstance(m, int)` is
true for a bool, so a bool mapping takes the numeric branch. -/
def render_owner_mention (ownerMentions : String → Option PValue)
    (ownerId : PValue) (fallbackName : String) : String :=
  match ownerId with
  | .pNone => if fallbackName != "" then fallbackName else ""
  | v =>
    let key := py_strip (pyStr v)
    match ownerMentions key with
    | none => if fallbackName != "" then fallbackName else key
    | some m =>
      match m with
      | .pInt n => mention_link n (if fallbackName != "" then fallbackName else key)
      | .pBool b => mention_link (if b then 1 else 0) (if fallbackName != "" then fallbackName else key)
      | .pStr s =>
        if str_isdigit s then
          mention_link (py_int_of_str s) (if fallbackName != "" then fallbackName else key)
        else if s.startsWith "@" then s
        else if s != "" then s
        else if fallbackName != "" then fallbackName else key
      | .pNone => if fallbackName != "" then fallbackName else key

/-- `main.py` lines 659-667 (`schedule_owner_reminder`): the reminder message
text. `pid` is the hard-coded string `"24115553"`; the `portal_id` parameter
of the function is carried but never read here. -/
def reminder_text (ownersMap : String → Option String)
    (ownerMentions : String → Option PValue)
    (dealId : String) (ownerId : PValue) (portalId : Option String) : String :=
  let ownerName := render_owner_name ownersMap ownerId
  let mention := render_owner_mention ownerMentions ownerId ownerName
  let pid := "24115553"
  let dealLink :=
    if pid != "" then
      "https://app.hubspot.com/contacts/" ++ pid ++ "/record/0-3/" ++ dealId
    else
      "deal id: " ++ dealId
  mention ++ " reminder: you need to determine the main practice for the deal\n" ++ dealLink

/-- Outcome of one `hs_get_deal` call at wake time inside the reminder loop
(`main.py` line 628): the call raised, or returned the two checked
properties. -/
inductive FetchOutcome
  | exn
  | ok (flag mp : PValue)
deriving DecidableEq, Repr

/-- How an iteration of the reminder loop ends: the two terminal returns
(lines 639-641 and 653-655), a `CancelledError` raised at the sleep, or
`pending` when the modelled fetch trace is exhausted while the loop would
keep iterating. -/
inductive LoopRes
  | stoppedFlag
  | stoppedMp
  | cancelled
  | pending
deriving DecidableEq, Repr

structure LoopOut where
  attempts : Nat
  delivered : Nat
  res : LoopRes
deriving DecidableEq, Repr

/-- `main.py` lines 615-679: the body of `schedule_owner_reminder`'s
`while True` loop. Each iteration sleeps (where a pending cancellation is
raised: `cancelAfter = some 0`), re-fetches the deal (next entry of
`fetches`), stops on the two terminal checks, and otherwise attempts one
send. A fetch failure is caught at line 656 and the send still happens; a
send failure (`sendOk i = false`) is caught at line 677 and only the
`delivered` counter differs. -/
def reminder_loop (sendOk : Nat → Bool) :
    List FetchOutcome → Option Nat → Nat → Nat → Nat → LoopOut
  | fetches, cancelAfter, i, att, del =>
    if cancelAfter = some 0 then ⟨att, del, .cancelled⟩
    else
      match fetches with
      | [] => ⟨att, del, .pending⟩
      | f :: rest =>
        match f with
        | .exn =>
          reminder_loop sendOk rest (cancelAfter.map (· - 1)) (i + 1) (att + 1)
            (del + if sendOk i then 1 else 0)
        | .ok flag mp =>
          if loop_should_continue flag = false then ⟨att, del, .stoppedFlag⟩
          else if loop_is_set mp = true then ⟨att, del, .stoppedMp⟩
          else
            reminder_loop sendOk rest (cancelAfter.map (· - 1)) (i + 1) (att + 1)
              (del + if sendOk i then 1 else 0)

/-- Delete the entry for a key from the task registry (`del _ACTIVE_REMINDERS[id]`). -/
def eraseKey (reg : List (String × Nat)) (dealId : String) : List (String × Nat) :=
  reg.filter (fun p => p.1 != dealId)

/-- Overwriting registration `_ACTIVE_REMINDERS[id] = task`. -/
def setKey (reg : List (String × Nat)) (dealId : String) (tid : Nat) : List (String × Nat) :=
  (dealId, tid) :: eraseKey reg dealId

def lookupKey (reg : List (String × Nat)) (dealId : String) : Option Nat :=
  (reg.find? (fun p => p.1 == dealId)).map (fun p => p.2)

/-- How the task ends as seen by its caller: normal return, cancellation, or
an ordinary exception escaping the function. -/
inductive TaskOutcome
  | completed
  | cancelled
  | errored
deriving DecidableEq, Repr

structure TaskResult where
  outcome : TaskOutcome
  attempts : Nat
  registry : List (String × Nat)
deriving DecidableEq, Repr

/-- `main.py` lines 608-688: the whole `schedule_owner_reminder` task.
It first registers itself (line 613, overwriting any prior entry), runs the
loop, and in `finally` (lines 686-688) deletes the registry entry when
present. The handler at lines 680-682 re-raises `CancelledError` (outcome
`cancelled`); the handler at lines 683-684 swallows every other exception
(outcome `completed`), so `errored` is never produced. -/
def schedule_owner_reminder (dealId : String) (tid : Nat) (sendOk : Nat → Bool)
    (fetches : List FetchOutcome) (cancelAfter : Option Nat)
    (reg0 : List (String × Nat)) : TaskResult :=
  let reg1 := setKey reg0 dealId tid
  let r := reminder_loop sendOk fetches cancelAfter 0 0 0
  let reg2 := if (lookupKey reg1 dealId).isSome then eraseKey reg1 dealId else reg1
  match r.res with
  | .cancelled => ⟨.cancelled, r.attempts, reg2⟩
  | _ => ⟨.completed, r.attempts, reg2⟩

/-- A wake-time fetch outcome on which the loop keeps going: either the fetch
raised (best-effort proceed, line 656) or the deal is still eligible. -/
def fetch_continues : FetchOutcome → Bool
  | .exn => true
  | .ok flag mp => loop_should_continue flag && !(loop_is_set mp)

/-- Result of `hs_get_deal` as seen by the webhook handler and the recovery
scan: the call raised, or returned properties (distribution flag, main
practice, owner). -/
inductive WFetch
  | exn
  | got (flag mp owner : PValue)
deriving DecidableEq, Repr

/-- `main.py` lines 322-356: a fetched recovery candidate passes all three
checks (flag true, main practice unset, owner assigned). -/
def restore_eligible : WFetch → Bool
  | .exn => false
  | .got flag mp owner =>
    restore_should_remind flag && !(restore_mp_is_set mp) && pyTruthy owner

structure ScanAcc where
  restored : Nat
  skipped : Nat
  errored : Nat
  started : List String
deriving DecidableEq, Repr

/-- The `try` body applied to one fetched candidate, `main.py` lines
317-356: an exception counts as errored, then the three skip checks, then
restoration. -/
def restore_check (acc : ScanAcc) (dealId : String) : WFetch → ScanAcc
  | .exn => { acc with errored := acc.errored + 1 }
  | .got flag mp owner =>
    if restore_should_remind flag = false then { acc with skipped := acc.skipped + 1 }
    else if restore_mp_is_set mp = true then { acc with skipped := acc.skipped + 1 }
    else if pyTruthy owner = false then { acc with skipped := acc.skipped + 1 }
    else { acc with restored := acc.restored + 1, started := acc.started ++ [dealId] }

/-- One candidate of the restoration for-loop, `main.py` lines 310-368. -/
def restore_step (activeKeys : List String) (rf : String → WFetch)
    (acc : ScanAcc) (dealId : String) : ScanAcc :=
  if dealId ∈ activeKeys then { acc with skipped := acc.skipped + 1 }
  else restore_check acc dealId (rf dealId)

/-- `main.py` lines 281-370 (`restore_reminders_from_sheets`), over an
explicit candidate iteration order (Python set iteration order is
unspecified). The loop body contains no `await`, so the active registry does
not change while the scan runs. -/
def restore_reminders_scan (activeKeys : List String) (rf : String → WFetch)
    (cands : List String) : ScanAcc :=
  cands.foldl (restore_step activeKeys rf) ⟨0, 0, 0, []⟩

/-- `main.py` line 298: candidates = Deals-sheet ids minus Chosen_practice ids. -/
def restore_candidates (dealsIds chosenIds : Finset String) : Finset String :=
  dealsIds \ chosenIds

/-- Shared process state: `_POSTED_DEALS`, `_ACTIVE_REMINDERS`, the running
and not-yet-started reminder tasks, and the log of initial posts sent. -/
structure ProcState where
  posted : List String
  active : List (String × Nat)
  running : List (String × Nat)
  pending : List (String × Nat)
  posts : List String
  nextTid : Nat
deriving DecidableEq, Repr

def procInit : ProcState := ⟨[], [], [], [], [], 0⟩

/-- `main.py` lines 102-109 (`cancel_deal_reminders`): net effect of
cancelling the task registered for `dealId`, whether it is still pending or
already running. -/
def cancel_deal_reminders (st : ProcState) (dealId : String) : ProcState :=
  match lookupKey st.active dealId with
  | none => st
  | some t =>
    { st with
      active := eraseKey st.active dealId,
      running := st.running.erase (dealId, t),
      pending := st.pending.erase (dealId, t) }

/-- Process-level events: a webhook delivery for one deal (with the result of
its `hs_get_deal`), a created task getting scheduled and registering itself
(lines 610-613), a running loop finishing (its `finally`), and the startup
recovery scan. -/
inductive Ev
  | webhook (dealId : String) (f : WFetch)
  | taskStarted (tid : Nat)
  | loopEnded (dealId : String) (tid : Nat)
  | recovery (cands : List String) (rf : String → WFetch)

def assign_tids : List String → Nat → List (String × Nat)
  | [], _ => []
  | x :: xs, t => (x, t) :: assign_tids xs (t + 1)

/-- One step of the process model. The webhook branch follows `main.py`
lines 921-1115: empty id skipped, fetch failure swallowed, flag-false and
main-practice-set branches cancel the registered reminder, and the initial
post runs only when the posted-set claim (lines 985-989) succeeds, spawning
a reminder task when an owner is assigned (lines 1110-1113) without any
check of the active registry. `taskStarted` performs the task's overwriting
self-registration. `recovery` creates a task for every candidate the scan
restores. -/
def procStep (st : ProcState) : Ev → ProcState
  | .webhook dealId f =>
    if dealId = "" then st
    else
      match f with
      | .exn => st
      | .got flag mp owner =>
        if webhook_should_post flag = false then cancel_deal_reminders st dealId
        else if webhook_mp_is_set mp = true then cancel_deal_reminders st dealId
        else if dealId ∈ st.posted then st
        else
          { st with
            posted := dealId :: st.posted,
            posts := st.posts ++ [dealId],
            pending :=
              if pyTruthy owner then st.pending ++ [(dealId, st.nextTid)] else st.pending,
            nextTid := if pyTruthy owner then st.nextTid + 1 else st.nextTid }
  | .taskStarted tid =>
    match st.pending.find? (fun p => p.2 == tid) with
    | none => st
    | some p =>
      { st with
        pending := st.pending.erase p,
        active := setKey st.active p.1 p.2,
        running := st.running ++ [p] }
  | .loopEnded dealId tid =>
    if (dealId, tid) ∈ st.running then
      { st with
        running := st.running.erase (dealId, tid),
        active := eraseKey st.active dealId }
    else st
  | .recovery cands rf =>
    let acc := restore_reminders_scan (st.active.map (fun p => p.1)) rf cands
    { st with
      pending := st.pending ++ assign_tids acc.started st.nextTid,
      nextTid := st.nextTid + acc.started.length }

def runEvents (st : ProcState) (evs : List Ev) : ProcState :=
  evs.foldl procStep st

/-- Number of reminder-loop instances (created-pending or running) for an id. -/
def loop_count (st : ProcState) (dealId : String) : Nat :=
  st.pending.countP (fun p => p.1 == dealId) + st.running.countP (fun p => p.1 == dealId)

/-- Number of concurrently running reminder loops for an id. -/
def running_count (st : ProcState) (dealId : String) : Nat :=
  st.running.countP (fun p => p.1 == dealId)

def is_recovery : Ev → Bool
  | .recovery _ _ => true
  | _ => false

def usecPerHour : Int := 3600000000

def usecPerDay : Int := 86400000000

/-- Weekday (0 = Monday) of an MSK-local instant, measured in microseconds
from an epoch falling on a Monday 00:00 local. -/
def weekday (t : Int) : Int := t / usecPerDay % 7

/-- `current_msk.replace(hour=9, minute=0, second=0, microsecond=0)`. -/
def replace9 (t : Int) : Int := t / usecPerDay * usecPerDay + 9 * usecPerHour

/-- `current_msk.replace(hour=19, minute=0, second=0, microsecond=0)`. -/
def dayEnd19 (t : Int) : Int := t / usecPerDay * usecPerDay + 19 * usecPerHour

/-- `main.py` lines 585-586: jump to next Monday 09:00. -/
def next_monday_morning (t : Int) : Int := replace9 (t + (7 - weekday t) * usecPerDay)

/-- `main.py` lines 595-596: jump to tomorrow 09:00. -/
def next_day_morning (t : Int) : Int := replace9 (t + usecPerDay)

/-- `main.py` lines 577-606 (`add_business_hours_msk`): fuel-indexed version
of the `while remaining > 0` loop over MSK-local time; `none` when the fuel
runs out before the loop exits. -/
def add_business_hours_loop : Nat → Int → Int → Option Int
  | 0, _, _ => none
  | fuel + 1, cur, rem =>
    if rem ≤ 0 then some cur
    else if 5 ≤ weekday cur then add_business_hours_loop fuel (next_monday_morning cur) rem
    else if cur < replace9 cur then add_business_hours_loop fuel (replace9 cur) rem
    else if dayEnd19 cur ≤ cur then add_business_hours_loop fuel (next_day_morning cur) rem
    else if rem ≤ dayEnd19 cur - cur then some (cur + rem)
    else add_business_hours_loop fuel (dayEnd19 cur) (rem - (dayEnd19 cur - cur))

/-- Boundary rank of a local instant: 0 inside the working window, 1 on a
weekend or before the window start, 2 at/after the window end. -/
def biz_rank (t : Int) : Nat :=
  if 5 ≤ weekday t then 1
  else if t < replace9 t then 1
  else if dayEnd19 t ≤ t then 2
  else 0

/-- Termination measure for the business-hours loop. -/
def biz_measure (cur rem : Int) : Nat := 3 * rem.toNat + biz_rank cur

def msk_offset_usec : Int := 3 * usecPerHour

/-- `add_business_hours_msk` with the Europe/Moscow conversions modelled as
the fixed UTC+3 offset and the duration in whole microseconds (the
resolution of `timedelta`). -/
def add_business_hours_msk (startUtc : Int) (remUsec : Int) : Option Int :=
  (add_business_hours_loop (biz_measure (startUtc + msk_offset_usec) remUsec + 1)
      (startUtc + msk_offset_usec) remUsec).map (fun t => t - msk_offset_usec)

/-- C9: the eligibility predicate is computed by the same function at all
three decision sites (webhook handling, wake-time re-check, recovery scan):
the gating flag counts as true iff the value is the boolean True or a string
equal to "true" after trimming and lowercasing, and the terminal
main-practice field counts as set iff the value is a non-trivial string or a
non-None non-string truthy value; the three embedded predicates agree on
every input value and match the spec-described semantics. -/
theorem c9_same_predicate_all_sites :
    ∀ v : PValue,
      webhook_should_post v = loop_should_continue v ∧
      webhook_should_post v = restore_should_remind v ∧
      webhook_should_post v = spec_gating_true v ∧
      webhook_mp_is_set v = loop_is_set v ∧
      webhook_mp_is_set v = restore_mp_is_set v ∧
      webhook_mp_is_set v = spec_terminal_set v := by
  intro v
  cases v with
  | pNone =>
    simp [webhook_should_post, loop_should_continue, restore_should_remind,
      spec_gating_true, webhook_mp_is_set, loop_is_set, restore_mp_is_set,
      spec_terminal_set]
  | pBool b =>
    cases b <;>
      simp [webhook_should_post, loop_should_continue, restore_should_remind,
        spec_gating_true, webhook_mp_is_set, loop_is_set, restore_mp_is_set,
        spec_terminal_set, pyTruthy]
  | pStr s =>
    simp [webhook_should_post, loop_should_continue, restore_should_remind,
      spec_gating_true, webhook_mp_is_set, loop_is_set, restore_mp_is_set,
      spec_terminal_set]
  | pInt n =>
    simp [webhook_should_post, loop_should_continue, restore_should_remind,
      spec_gating_true, webhook_mp_is_set, loop_is_set, restore_mp_is_set,
      spec_terminal_set, pyTruthy]

/-- C10: the reminder message text is independent of the portal_id argument
of schedule_owner_reminder; the deal link always uses the hard-coded portal
id "24115553", so any two portal_id values produce identical text. -/
theorem c10_reminder_text_portal_independent :
    ∀ (ownersMap : String → Option String) (ownerMentions : String → Option PValue)
      (dealId : String) (ownerId : PValue) (p1 p2 : Option String),
      reminder_text ownersMap ownerMentions dealId ownerId p1 =
        reminder_text ownersMap ownerMentions dealId ownerId p2 := by
  intro _ _ _ _ _ _
  rfl

theorem reminder_loop_sendOk_agnostic (s1 s2 : Nat → Bool) :
    ∀ (fetches : List FetchOutcome) (cancelAfter : Option Nat) (i j att d1 d2 : Nat),
      (reminder_loop s1 fetches cancelAfter i att d1).attempts =
        (reminder_loop s2 fetches cancelAfter j att d2).attempts ∧
      (reminder_loop s1 fetches cancelAfter i att d1).res =
        (reminder_loop s2 fetches cancelAfter j att d2).res := by
  intro fetches
  induction fetches with
  | nil =>
    intro ca i j att d1 d2
    by_cases h : ca = some 0 <;> simp [reminder_loop, h]
  | cons f rest ih =>
    intro ca i j att d1 d2
    by_cases h : ca = some 0
    · simp [reminder_loop, h]
    · cases f with
      | exn =>
        simpa [reminder_loop, h] using
          ih (ca.map (· - 1)) (i + 1) (j + 1) (att + 1)
            (d1 + if s1 i then 1 else 0) (d2 + if s2 j then 1 else 0)
      | ok flag mp =>
        by_cases h1 : loop_should_continue flag = false
        · simp [reminder_loop, h, h1]
        · by_cases h2 : loop_is_set mp = true
          · simp [reminder_loop, h, h1, h2]
          · simpa [reminder_loop, h, h1, h2] using
              ih (ca.map (· - 1)) (i + 1) (j + 1) (att + 1)
                (d1 + if s1 i then 1 else 0) (d2 + if s2 j then 1 else 0)

theorem restore_check_counts (acc : ScanAcc) (c : String) (w : WFetch) :
    (restore_check acc c w).restored + (restore_check acc c w).skipped +
        (restore_check acc c w).errored =
      acc.restored + acc.skipped + acc.errored + 1 := by
  cases w with
  | exn => simp [restore_check]; omega
  | got flag mp owner =>
    by_cases h1 : restore_should_remind flag = false
    · simp [restore_check, h1]; omega
    · by_cases h2 : restore_mp_is_set mp = true
      · simp [restore_check, h1, h2]; omega
      · by_cases h3 : pyTruthy owner = false
        · simp [restore_check, h1, h2, h3]; omega
        · simp [restore_check, h1, h2, h3]; omega

theorem restore_step_counts (activeKeys : List String) (rf : String → WFetch)
    (acc : ScanAcc) (c : String) :
    (restore_step activeKeys rf acc c).restored +
        (restore_step activeKeys rf acc c).skipped +
        (restore_step activeKeys rf acc c).errored =
      acc.restored + acc.skipped + acc.errored + 1 := by
  unfold restore_step
  by_cases hc : c ∈ activeKeys
  · simp [hc]; omega
  · rw [if_neg hc]
    exact restore_check_counts acc c (rf c)

theorem restore_check_started (acc : ScanAcc) (c x : String) (w : WFetch) :
    x ∈ (restore_check acc c w).started ↔
      x ∈ acc.started ∨ (x = c ∧ restore_eligible w = true) := by
  cases w with
  | exn => simp [restore_check, restore_eligible]
  | got flag mp owner =>
    by_cases h1 : restore_should_remind flag = false
    · simp [restore_check, restore_eligible, h1]
    · by_cases h2 : restore_mp_is_set mp = true
      · simp [restore_check, restore_eligible, h1, h2]
      · by_cases h3 : pyTruthy owner = false
        · simp [restore_check, restore_eligible, h1, h2, h3]
        · have helig : restore_eligible (WFetch.got flag mp owner) = true := by
            simp only [restore_eligible, Bool.and_eq_true, Bool.not_eq_true]
            refine ⟨⟨?_, ?_⟩, ?_⟩
            · cases hb : restore_should_remind flag
              · exact absurd hb h1
              · rfl
            · cases hb : restore_mp_is_set mp
              · rfl
              · exact absurd hb h2
            · cases hb : pyTruthy owner
              · exact absurd hb h3
              · rfl
          simp [restore_check, h1, h2, h3, helig, List.mem_append]

theorem restore_step_started (activeKeys : List String) (rf : String → WFetch)
    (acc : ScanAcc) (c x : String) :
    x ∈ (restore_step activeKeys rf acc c).started ↔
      x ∈ acc.started ∨
        (x = c ∧ c ∉ activeKeys ∧ restore_eligible (rf c) = true) := by
  unfold restore_step
  by_cases hc : c ∈ activeKeys
  · simp [hc]
  · rw [if_neg hc]
    rw [restore_check_started]
    constructor
    · rintro (h | ⟨rfl, he⟩)
      · exact Or.inl h
      · exact Or.inr ⟨rfl, hc, he⟩
    · rintro (h | ⟨rfl, _, he⟩)
      · exact Or.inl h
      · exact Or.inr ⟨rfl, he⟩

theorem restore_scan_counts (activeKeys : List String) (rf : String → WFetch) :
    ∀ (cands : List String) (acc : ScanAcc),
      (cands.foldl (restore_step activeKeys rf) acc).restored +
          (cands.foldl (restore_step activeKeys rf) acc).skipped +
          (cands.foldl (restore_step activeKeys rf) acc).errored =
        acc.restored + acc.skipped + acc.errored + cands.length := by
  intro cands
  induction cands with
  | nil => intro acc; simp
  | cons c rest ih =>
    intro acc
    rw [List.foldl_cons, ih, restore_step_counts]
    simp [List.length_cons]
    omega

theorem restore_scan_started_mem (activeKeys : List String) (rf : String → WFetch) :
    ∀ (cands : List String) (acc : ScanAcc) (x : String),
      x ∈ (cands.foldl (restore_step activeKeys rf) acc).started ↔
        x ∈ acc.started ∨
          (x ∈ cands ∧ x ∉ activeKeys ∧ restore_eligible (rf x) = true) := by
  intro cands
  induction cands with
  | nil => intro acc x; simp
  | cons c rest ih =>
    intro acc x
    rw [List.foldl_cons, ih, restore_step_started]
    constructor
    · rintro ((h | ⟨rfl, hna, he⟩) | ⟨hx, hna, he⟩)
      · exact Or.inl h
      · exact Or.inr ⟨List.mem_cons_self x rest, hna, he⟩
      · exact Or.inr ⟨List.mem_cons_of_mem c hx, hna, he⟩
    · rintro (h | ⟨hx, hna, he⟩)
      · exact Or.inl (Or.inl h)
      · rcases List.mem_cons.mp hx with rfl | hx2
        · exact Or.inl (Or.inr ⟨rfl, hna, he⟩)
        · exact Or.inr ⟨hx2, hna, he⟩

/-- C6: transient collaborator failures are contained at their call sites:
(1) which sends fail has no effect on the loop's attempts or exit, so a
failed send is swallowed and the next iteration is still scheduled; (2) a
wake-time fetch failure still produces a send attempt (best-effort proceed)
and the next iteration; (3) a fetch failure for a recovery candidate only
marks that candidate errored — it is never started — and the scan runs to
completion with restored + skipped + errored equal to the number of
candidates. -/
theorem c6_transient_failures_contained :
    (∀ (s1 s2 : Nat → Bool) (fetches : List FetchOutcome) (ca : Option Nat)
        (i j att d1 d2 : Nat),
        (reminder_loop s1 fetches ca i att d1).attempts =
          (reminder_loop s2 fetches ca j att d2).attempts ∧
        (reminder_loop s1 fetches ca i att d1).res =
          (reminder_loop s2 fetches ca j att d2).res) ∧
    (∀ (sendOk : Nat → Bool) (rest : List FetchOutcome) (i att del : Nat),
        reminder_loop sendOk (.exn :: rest) none i att del =
          reminder_loop sendOk rest none (i + 1) (att + 1)
            (del + if sendOk i then 1 else 0)) ∧
    (∀ (activeKeys : List String) (rf : String → WFetch) (cands : List String),
        (restore_reminders_scan activeKeys rf cands).restored +
            (restore_reminders_scan activeKeys rf cands).skipped +
            (restore_reminders_scan activeKeys rf cands).errored = cands.length ∧
        ∀ x, rf x = .exn →
          x ∉ (restore_reminders_scan activeKeys rf cands).started) := by
  refine ⟨fun s1 s2 fetches ca i j att d1 d2 =>
    reminder_loop_sendOk_agnostic s1 s2 fetches ca i j att d1 d2, ?_, ?_⟩
  · intro sendOk rest i att del
    simp [reminder_loop]
  · intro activeKeys rf cands
    constructor
    · have h := restore_scan_counts activeKeys rf cands ⟨0, 0, 0, []⟩
      simpa [restore_reminders_scan] using h
    · intro x hx hmem
      rw [restore_reminders_scan, restore_scan_started_mem] at hmem
      rcases hmem with h | ⟨_, _, he⟩
      · simp at h
      · rw [hx] at he
        simp [restore_eligible] at he

/-- C5: the recovery scan computes its candidates as (tracked-object ids)
minus (terminal-condition ids), and a candidate's loop is started iff the
candidate is not already registered as active and its fetched live state has
the gating flag true, the terminal field unset and an owner assigned. -/
theorem c5_recovery_candidates_and_starts
    (dealsIds chosenIds : Finset String) (cands : List String)
    (activeKeys : List String) (rf : String → WFetch)
    (hc : cands.toFinset = restore_candidates dealsIds chosenIds) :
    ∀ x, x ∈ (restore_reminders_scan activeKeys rf cands).started ↔
      (x ∈ dealsIds ∧ x ∉ chosenIds ∧ x ∉ activeKeys ∧
        restore_eligible (rf x) = true) := by
  intro x
  rw [restore_reminders_scan, restore_scan_started_mem]
  have hx : x ∈ cands ↔ (x ∈ dealsIds ∧ x ∉ chosenIds) := by
    rw [← List.mem_toFinset, hc]
    simp [restore_candidates]
  simp only [hx]
  simp
  tauto

/-- Witness for C5 at the spec's scenario: A = {"1","2","3"}, B = {"2"},
candidate "1" fully eligible, candidate "3" with gating flag false; exactly
the loop for "1" is started. -/
theorem c5_recovery_scenario_witness :
    "1" ∈ (restore_reminders_scan []
        (fun x => if x = "1"
          then WFetch.got (PValue.pStr "true") PValue.pNone (PValue.pStr "o1")
          else WFetch.got (PValue.pBool false) PValue.pNone PValue.pNone)
        ["1", "3"]).started ∧
    "3" ∉ (restore_reminders_scan []
        (fun x => if x = "1"
          then WFetch.got (PValue.pStr "true") PValue.pNone (PValue.pStr "o1")
          else WFetch.got (PValue.pBool false) PValue.pNone PValue.pNone)
        ["1", "3"]).started := by
  constructor
  · exact (c5_recovery_candidates_and_starts {"1", "2", "3"} {"2"} ["1", "3"] []
      (fun x => if x = "1"
        then WFetch.got (PValue.pStr "true") PValue.pNone (PValue.pStr "o1")
        else WFetch.got (PValue.pBool false) PValue.pNone PValue.pNone)
      (by decide) "1").mpr ⟨by decide, by decide, by decide, by decide⟩
  · intro hmem
    have h := (c5_recovery_candidates_and_starts {"1", "2", "3"} {"2"} ["1", "3"] []
      (fun x => if x = "1"
        then WFetch.got (PValue.pStr "true") PValue.pNone (PValue.pStr "o1")
        else WFetch.got (PValue.pBool false) PValue.pNone PValue.pNone)
      (by decide) "3").mp hmem
    exact absurd h.2.2.2 (by decide)

theorem lookupKey_setKey (reg : List (String × Nat)) (dealId : String) (tid : Nat) :
    lookupKey (setKey reg dealId tid) dealId = some tid := by
  unfold lookupKey setKey
  rw [List.find?_cons_of_pos _ (by simp)]
  rfl

theorem lookupKey_eraseKey (reg : List (String × Nat)) (dealId : String) :
    lookupKey (eraseKey reg dealId) dealId = none := by
  unfold lookupKey eraseKey
  have h : List.find? (fun p => p.1 == dealId)
      (List.filter (fun p => p.1 != dealId) reg) = none := by
    rw [List.find?_eq_none]
    intro p hp
    have h2 := (List.mem_filter.mp hp).2
    simp at h2 ⊢
    exact h2
  rw [h]
  rfl

/-- C3: on waking the reminder loop re-fetches the deal; if the gating flag
no longer holds or the main-practice field is set, it stops terminally
without sending a reminder, otherwise it sends one reminder and repeats;
with three still-eligible fetches followed by a terminal one, exactly 3
reminders are sent and the task completes without error. -/
theorem c3_wake_recheck_three_reminders
    (dealId : String) (tid : Nat) (sendOk : Nat → Bool) (reg0 : List (String × Nat))
    (f1 m1 f2 m2 f3 m3 fl ml : PValue)
    (h1 : fetch_continues (.ok f1 m1) = true)
    (h2 : fetch_continues (.ok f2 m2) = true)
    (h3 : fetch_continues (.ok f3 m3) = true)
    (ht : fetch_continues (.ok fl ml) = false) :
    (∀ (more : List FetchOutcome) (i att del : Nat),
        (reminder_loop sendOk (.ok fl ml :: more) none i att del).attempts = att) ∧
    (schedule_owner_reminder dealId tid sendOk
        [.ok f1 m1, .ok f2 m2, .ok f3 m3, .ok fl ml] none reg0).attempts = 3 ∧
    (schedule_owner_reminder dealId tid sendOk
        [.ok f1 m1, .ok f2 m2, .ok f3 m3, .ok fl ml] none reg0).outcome =
      .completed := by
  simp only [fetch_continues, Bool.and_eq_true, Bool.not_eq_true'] at h1 h2 h3
  have hstop : loop_should_continue fl = false ∨ loop_is_set ml = true := by
    cases hF : loop_should_continue fl
    · exact Or.inl rfl
    · cases hM : loop_is_set ml
      · exfalso
        simp [fetch_continues, hF, hM] at ht
      · exact Or.inr rfl
  have hpart1 : ∀ (more : List FetchOutcome) (i att del : Nat),
      (reminder_loop sendOk (.ok fl ml :: more) none i att del).attempts = att := by
    intro more i att del
    rcases hstop with hf | hm
    · simp [reminder_loop, hf]
    · by_cases hf2 : loop_should_continue fl = false
      · simp [reminder_loop, hf2]
      · simp [reminder_loop, hf2, hm]
  have hrun :
      (reminder_loop sendOk [.ok f1 m1, .ok f2 m2, .ok f3 m3, .ok fl ml]
          none 0 0 0).attempts = 3 ∧
      ((reminder_loop sendOk [.ok f1 m1, .ok f2 m2, .ok f3 m3, .ok fl ml]
          none 0 0 0).res = LoopRes.stoppedFlag ∨
        (reminder_loop sendOk [.ok f1 m1, .ok f2 m2, .ok f3 m3, .ok fl ml]
          none 0 0 0).res = LoopRes.stoppedMp) := by
    rcases hstop with hf | hm
    · constructor
      · simp [reminder_loop, h1.1, h1.2, h2.1, h2.2, h3.1, h3.2, hf]
      · left
        simp [reminder_loop, h1.1, h1.2, h2.1, h2.2, h3.1, h3.2, hf]
    · by_cases hf2 : loop_should_continue fl = false
      · constructor
        · simp [reminder_loop, h1.1, h1.2, h2.1, h2.2, h3.1, h3.2, hf2]
        · left
          simp [reminder_loop, h1.1, h1.2, h2.1, h2.2, h3.1, h3.2, hf2]
      · constructor
        · simp [reminder_loop, h1.1, h1.2, h2.1, h2.2, h3.1, h3.2, hf2, hm]
        · right
          simp [reminder_loop, h1.1, h1.2, h2.1, h2.2, h3.1, h3.2, hf2, hm]
  refine ⟨hpart1, ?_, ?_⟩
  · rcases hrun.2 with hres | hres <;>
      simp only [schedule_owner_reminder, hres] <;> simpa using hrun.1
  · rcases hrun.2 with hres | hres <;> simp only [schedule_owner_reminder, hres]

/-- Witness for C3: a concrete run with three eligible fetches then a
main-practice-set fetch sends exactly 3 reminders and completes. -/
theorem c3_three_reminders_witness :
    (schedule_owner_reminder "1" 0 (fun _ => true)
        [.ok (.pStr "true") .pNone, .ok (.pBool true) .pNone,
         .ok (.pStr " TRUE ") (.pStr "  "), .ok (.pStr "true") (.pStr "x")]
        none []).attempts = 3 ∧
    (schedule_owner_reminder "1" 0 (fun _ => true)
        [.ok (.pStr "true") .pNone, .ok (.pBool true) .pNone,
         .ok (.pStr " TRUE ") (.pStr "  "), .ok (.pStr "true") (.pStr "x")]
        none []).outcome = .completed := by
  have h := c3_wake_recheck_three_reminders "1" 0 (fun _ => true) []
    (.pStr "true") .pNone (.pBool true) .pNone (.pStr " TRUE ") (.pStr "  ")
    (.pStr "true") (.pStr "x") (by decide) (by decide) (by decide) (by decide)
  exact ⟨h.2.1, h.2.2⟩

theorem reminder_loop_cancelled (sendOk : Nat → Bool) :
    ∀ (k : Nat) (fetches : List FetchOutcome) (i att del : Nat),
      k ≤ fetches.length →
      (fetches.take k).all fetch_continues = true →
      (reminder_loop sendOk fetches (some k) i att del).attempts = att + k ∧
      (reminder_loop sendOk fetches (some k) i att del).res = .cancelled := by
  intro k
  induction k with
  | zero =>
    intro fetches i att del _ _
    rw [reminder_loop.eq_def]
    simp
  | succ k ih =>
    intro fetches i att del hlen hall
    cases fetches with
    | nil => simp at hlen
    | cons f rest =>
      rw [List.take_succ_cons, List.all_cons, Bool.and_eq_true] at hall
      have hlen2 : k ≤ rest.length := by simpa using hlen
      cases f with
      | exn =>
        have hstep : reminder_loop sendOk (FetchOutcome.exn :: rest) (some (k + 1)) i att del =
            reminder_loop sendOk rest (some k) (i + 1) (att + 1)
              (del + if sendOk i then 1 else 0) := by
          simp [reminder_loop]
        have hrec := ih rest (i + 1) (att + 1) (del + if sendOk i then 1 else 0) hlen2 hall.2
        rw [hstep]
        exact ⟨by rw [hrec.1]; omega, hrec.2⟩
      | ok flag mp =>
        have hc := hall.1
        simp only [fetch_continues, Bool.and_eq_true, Bool.not_eq_true'] at hc
        have hstep : reminder_loop sendOk (FetchOutcome.ok flag mp :: rest) (some (k + 1)) i att del =
            reminder_loop sendOk rest (some k) (i + 1) (att + 1)
              (del + if sendOk i then 1 else 0) := by
          simp [reminder_loop, hc.1, hc.2]
        have hrec := ih rest (i + 1) (att + 1) (del + if sendOk i then 1 else 0) hlen2 hall.2
        rw [hstep]
        exact ⟨by rw [hrec.1]; omega, hrec.2⟩

/-- C4: if cancellation is delivered at the sleep of iteration k while every
earlier fetch let the loop continue, the loop makes no further send
(attempts stays at k), the CancelledError is re-raised so the task outcome
is cancelled — never an ordinary error escaping to the caller — and the
id's registration is removed from the active-reminder registry. -/
theorem c4_cancel_during_sleep
    (dealId : String) (tid : Nat) (sendOk : Nat → Bool)
    (fetches : List FetchOutcome) (k : Nat) (reg0 : List (String × Nat))
    (hk : k ≤ fetches.length)
    (hcont : (fetches.take k).all fetch_continues = true) :
    (schedule_owner_reminder dealId tid sendOk fetches (some k) reg0).attempts = k ∧
    (schedule_owner_reminder dealId tid sendOk fetches (some k) reg0).outcome =
      .cancelled ∧
    lookupKey (schedule_owner_reminder dealId tid sendOk fetches (some k) reg0).registry
      dealId = none := by
  have h := reminder_loop_cancelled sendOk k fetches 0 0 0 hk hcont
  have hreg : (lookupKey (setKey reg0 dealId tid) dealId).isSome = true := by
    rw [lookupKey_setKey]
    rfl
  refine ⟨?_, ?_, ?_⟩
  · simp only [schedule_owner_reminder, h.2]
    simpa using h.1
  · simp only [schedule_owner_reminder, h.2]
  · simp only [schedule_owner_reminder, h.2, hreg, if_true]
    exact lookupKey_eraseKey _ _

/-- Witness for C4: cancellation delivered at the third sleep after two
continuing iterations (one fetch failure, one eligible fetch). -/
theorem c4_cancel_during_sleep_witness :
    (schedule_owner_reminder "1" 0 (fun _ => true)
        [.exn, .ok (.pStr "true") .pNone] (some 2) [("1", 5), ("2", 7)]).attempts = 2 ∧
    (schedule_owner_reminder "1" 0 (fun _ => true)
        [.exn, .ok (.pStr "true") .pNone] (some 2) [("1", 5), ("2", 7)]).outcome =
      .cancelled ∧
    lookupKey (schedule_owner_reminder "1" 0 (fun _ => true)
        [.exn, .ok (.pStr "true") .pNone] (some 2) [("1", 5), ("2", 7)]).registry
      "1" = none :=
  c4_cancel_during_sleep "1" 0 (fun _ => true)
    [.exn, .ok (.pStr "true") .pNone] 2 [("1", 5), ("2", 7)]
    (by decide) (by decide)

theorem countP_erase_le {α : Type} [BEq α] (p : α → Bool) (l : List α) (a : α) :
    (l.erase a).countP p ≤ l.countP p :=
  List.Sublist.countP_le p (List.erase_sublist a l)

theorem countP_erase_of_mem {α : Type} [BEq α] [LawfulBEq α]
    (p : α → Bool) (l : List α) (a : α) (h : a ∈ l) (hp : p a = true) :
    (l.erase a).countP p + 1 = l.countP p := by
  induction l with
  | nil => cases h
  | cons b l ih =>
    rw [List.erase_cons]
    by_cases hb : (b == a) = true
    · have hba : b = a := eq_of_beq hb
      subst hba
      rw [if_pos (by simp), List.countP_cons]
      simp [hp]
    · rw [if_neg hb, List.countP_cons, List.countP_cons]
      have h2 : a ∈ l := by
        rcases List.mem_cons.mp h with rfl | h2
        · exact absurd (by simp) hb
        · exact h2
      have := ih h2
      by_cases hpb : p b = true <;> simp [hpb] <;> omega

theorem countP_erase_of_neg {α : Type} [BEq α] [LawfulBEq α]
    (p : α → Bool) (l : List α) (a : α) (hp : p a = false) :
    (l.erase a).countP p = l.countP p := by
  induction l with
  | nil => rfl
  | cons b l ih =>
    rw [List.erase_cons]
    by_cases hb : (b == a) = true
    · have hba : b = a := eq_of_beq hb
      subst hba
      rw [if_pos (by simp), List.countP_cons]
      simp [hp]
    · rw [if_neg hb, List.countP_cons, List.countP_cons, ih]

theorem cancel_posted_eq (st : ProcState) (dealId : String) :
    (cancel_deal_reminders st dealId).posted = st.posted := by
  unfold cancel_deal_reminders
  cases lookupKey st.active dealId with
  | none => rfl
  | some t => rfl

theorem loop_count_cancel_le (st : ProcState) (dealId x : String) :
    loop_count (cancel_deal_reminders st dealId) x ≤ loop_count st x := by
  unfold cancel_deal_reminders
  cases lookupKey st.active dealId with
  | none => exact le_refl _
  | some t =>
    unfold loop_count
    have h1 := countP_erase_le (fun p => p.1 == x) st.pending (dealId, t)
    have h2 := countP_erase_le (fun p => p.1 == x) st.running (dealId, t)
    dsimp only
    omega

theorem procStep_webhook_fresh (st : ProcState) (dealId : String)
    (flag mp owner : PValue) (hid : dealId ≠ "")
    (hf : webhook_should_post flag = true) (hm : webhook_mp_is_set mp = false)
    (hp : dealId ∉ st.posted) :
    (procStep st (.webhook dealId (.got flag mp owner))).posted = dealId :: st.posted ∧
    (procStep st (.webhook dealId (.got flag mp owner))).posts = st.posts ++ [dealId] := by
  simp only [procStep]
  rw [if_neg hid]
  simp [hf, hm, hp]

theorem procStep_webhook_posted (st : ProcState) (dealId : String)
    (flag mp owner : PValue)
    (hf : webhook_should_post flag = true) (hm : webhook_mp_is_set mp = false)
    (hp : dealId ∈ st.posted) :
    procStep st (.webhook dealId (.got flag mp owner)) = st := by
  simp only [procStep]
  by_cases hid : dealId = ""
  · rw [if_pos hid]
  · rw [if_neg hid]
    simp [hf, hm, hp]

theorem runEvents_webhook_posted (dealId : String) (flag mp owner : PValue)
    (hf : webhook_should_post flag = true) (hm : webhook_mp_is_set mp = false) :
    ∀ (n : Nat) (st : ProcState), dealId ∈ st.posted →
      runEvents st (List.replicate n (.webhook dealId (.got flag mp owner))) = st := by
  intro n
  induction n with
  | zero => intro st hp; rfl
  | succ n ih =>
    intro st hp
    rw [List.replicate_succ]
    unfold runEvents at *
    rw [List.foldl_cons, procStep_webhook_posted st dealId flag mp owner hf hm hp]
    exact ih st hp

/-- C2: within one process lifetime the initial-post claim for a deal id
succeeds exactly once: across any number n ≥ 1 of duplicate deliveries of
the same eligible event, exactly one initial notification for that id is
posted; every later delivery finds the id in the posted set and skips. -/
theorem c2_initial_post_claim_once
    (dealId : String) (flag mp owner : PValue) (n : Nat)
    (hid : dealId ≠ "") (hf : webhook_should_post flag = true)
    (hm : webhook_mp_is_set mp = false) (hn : 1 ≤ n) :
    ((runEvents procInit
        (List.replicate n (.webhook dealId (.got flag mp owner)))).posts).count dealId
      = 1 := by
  obtain ⟨m, rfl⟩ : ∃ m, n = m + 1 := ⟨n - 1, by omega⟩
  rw [List.replicate_succ]
  unfold runEvents
  rw [List.foldl_cons]
  have h1 := procStep_webhook_fresh procInit dealId flag mp owner hid hf hm
    (by simp [procInit])
  have hrun := runEvents_webhook_posted dealId flag mp owner hf hm m
    (procStep procInit (.webhook dealId (.got flag mp owner)))
    (by rw [h1.1]; exact List.mem_cons_self _ _)
  unfold runEvents at hrun
  rw [hrun, h1.2]
  simp [procInit]

/-- Witness for C2: three duplicate eligible deliveries for deal "1" yield
exactly one initial post. -/
theorem c2_initial_post_claim_once_witness :
    ((runEvents procInit
        (List.replicate 3 (.webhook "1" (.got (.pBool true) .pNone .pNone)))).posts).count "1"
      = 1 :=
  c2_initial_post_claim_once "1" (.pBool true) .pNone .pNone 3
    (by decide) (by decide) (by decide) (by decide)

/-- C8: the recovery scan never modifies the posted set or the post log
(frame property); consequently, after a restart (posted set empty) an
eligible event for an id whose initial message was posted in a prior
process lifetime is treated as not yet posted and is posted again, even
when recovery may have restored that id's reminder loop. -/
theorem c8_recovery_never_touches_posted :
    (∀ (st : ProcState) (cands : List String) (rf : String → WFetch),
        (procStep st (.recovery cands rf)).posted = st.posted ∧
        (procStep st (.recovery cands rf)).posts = st.posts) ∧
    (∀ (cands : List String) (rf : String → WFetch) (dealId : String)
        (flag mp owner : PValue),
        dealId ≠ "" → webhook_should_post flag = true →
        webhook_mp_is_set mp = false →
        (runEvents procInit
            [.recovery cands rf, .webhook dealId (.got flag mp owner)]).posts
          = [dealId]) := by
  constructor
  · intro st cands rf
    exact ⟨rfl, rfl⟩
  · intro cands rf dealId flag mp owner hid hf hm
    unfold runEvents
    rw [List.foldl_cons, List.foldl_cons, List.foldl_nil]
    have h1 := procStep_webhook_fresh (procStep procInit (.recovery cands rf))
      dealId flag mp owner hid hf hm (by simp [procStep, procInit])
    rw [h1.2]
    rfl

/-- Witness for C8: a recovery pass that restores deal "1" followed by an
eligible event for "1" still posts the initial message for "1". -/
theorem c8_recovery_never_touches_posted_witness :
    (runEvents procInit
        [.recovery ["1"] (fun _ => .got (.pBool true) .pNone (.pStr "o1")),
         .webhook "1" (.got (.pBool true) .pNone (.pStr "o1"))]).posts = ["1"] :=
  c8_recovery_never_touches_posted.2 ["1"]
    (fun _ => .got (.pBool true) .pNone (.pStr "o1")) "1"
    (.pBool true) .pNone (.pStr "o1") (by decide) (by decide) (by decide)

/-- C1 counterexample: the posted set is empty at process start, so a
recovery pass that restores the reminder loop for deal "1" followed by the
first webhook event for "1" (which never consults the active-reminder
registry before calling `asyncio.create_task(schedule_owner_reminder ...)`)
leaves two concurrently running reminder loops for "1"; the second start
was not a no-op — it overwrote the registration without cancelling the
first loop. -/
theorem c1_two_loops_counterexample :
    running_count
      (runEvents procInit
        [.recovery ["1"] (fun _ => .got (.pStr "true") .pNone (.pStr "o1")),
         .taskStarted 0,
         .webhook "1" (.got (.pStr "true") .pNone (.pStr "o1")),
         .taskStarted 1])
      "1" = 2 := by
  decide

theorem procStep_loop_count_inv (st : ProcState) (e : Ev)
    (he : is_recovery e = false)
    (h : ∀ x, loop_count st x ≤ 1 ∧ (x ∉ st.posted → loop_count st x = 0)) :
    ∀ x, loop_count (procStep st e) x ≤ 1 ∧
      (x ∉ (procStep st e).posted → loop_count (procStep st e) x = 0) := by
  intro x
  cases e with
  | recovery cands rf => simp [is_recovery] at he
  | webhook dealId f =>
    simp only [procStep]
    by_cases hid : dealId = ""
    · rw [if_pos hid]; exact h x
    · rw [if_neg hid]
      cases f with
      | exn => exact h x
      | got flag mp owner =>
        dsimp only
        by_cases hf : webhook_should_post flag = false
        · rw [if_pos hf]
          refine ⟨le_trans (loop_count_cancel_le st dealId x) (h x).1, ?_⟩
          intro hxp
          rw [cancel_posted_eq] at hxp
          have h2 := (h x).2 hxp
          have h3 := loop_count_cancel_le st dealId x
          omega
        · rw [if_neg hf]
          by_cases hm : webhook_mp_is_set mp = true
          · rw [if_pos hm]
            refine ⟨le_trans (loop_count_cancel_le st dealId x) (h x).1, ?_⟩
            intro hxp
            rw [cancel_posted_eq] at hxp
            have h2 := (h x).2 hxp
            have h3 := loop_count_cancel_le st dealId x
            omega
          · rw [if_neg hm]
            by_cases hp : dealId ∈ st.posted
            · rw [if_pos hp]; exact h x
            · rw [if_neg hp]
              by_cases hx : x = dealId
              · subst hx
                have h0 : loop_count st x = 0 := (h x).2 hp
                unfold loop_count at h0 ⊢
                constructor
                · dsimp only
                  by_cases ho : pyTruthy owner = true
                  · rw [if_pos ho, List.countP_append]
                    simp
                    omega
                  · rw [if_neg ho]
                    omega
                · intro hxp
                  exact absurd (List.mem_cons_self _ _) hxp
              · have hbeq : ((dealId, st.nextTid).1 == x) = false := by
                  simp
                  exact fun hcon => hx hcon.symm
                unfold loop_count at h ⊢
                dsimp only
                constructor
                · have hsing : List.countP (fun p => p.1 == x)
                      [(dealId, st.nextTid)] = 0 := by
                    simp [hbeq]
                  have hx1 := (h x).1
                  by_cases ho : pyTruthy owner = true
                  · rw [if_pos ho, List.countP_append, hsing]
                    omega
                  · rw [if_neg ho]
                    exact hx1
                · intro hxp
                  have hxp2 : x ∉ st.posted := fun hcon =>
                    hxp (List.mem_cons_of_mem _ hcon)
                  have h0 := (h x).2 hxp2
                  have hsing : List.countP (fun p => p.1 == x)
                      [(dealId, st.nextTid)] = 0 := by
                    simp [hbeq]
                  by_cases ho : pyTruthy owner = true
                  · rw [if_pos ho, List.countP_append, hsing]
                    omega
                  · rw [if_neg ho]
                    exact h0
  | taskStarted tid =>
    simp only [procStep]
    cases hfind : st.pending.find? (fun p => p.2 == tid) with
    | none => exact h x
    | some q =>
      have hqmem : q ∈ st.pending := List.mem_of_find?_eq_some hfind
      dsimp only
      unfold loop_count at h ⊢
      dsimp only
      have hsingq : List.countP (fun p => p.1 == x) [q] =
          if (q.1 == x) = true then 1 else 0 := by
        by_cases hqx : (q.1 == x) = true <;> simp [hqx]
      constructor
      · rw [List.countP_append, hsingq]
        by_cases hqx : (q.1 == x) = true
        · have e1 := countP_erase_of_mem (fun p => p.1 == x) st.pending q hqmem hqx
          have hx1 := (h x).1
          rw [if_pos hqx]
          omega
        · have e1 := countP_erase_of_neg (fun p => p.1 == x) st.pending q
            (by simpa using hqx)
          have hx1 := (h x).1
          rw [if_neg hqx]
          omega
      · intro hxp
        have h0 := (h x).2 hxp
        rw [List.countP_append, hsingq]
        by_cases hqx : (q.1 == x) = true
        · have e1 := countP_erase_of_mem (fun p => p.1 == x) st.pending q hqmem hqx
          rw [if_pos hqx]
          omega
        · have e1 := countP_erase_of_neg (fun p => p.1 == x) st.pending q
            (by simpa using hqx)
          rw [if_neg hqx]
          omega
  | loopEnded dealId tid =>
    simp only [procStep]
    by_cases hr : (dealId, tid) ∈ st.running
    · rw [if_pos hr]
      unfold loop_count at h ⊢
      have e1 := countP_erase_le (fun p => p.1 == x) st.running (dealId, tid)
      constructor
      · dsimp only
        have hx1 := (h x).1
        omega
      · intro hxp
        dsimp only at hxp
        have h0 := (h x).2 hxp
        dsimp only
        omega
    · rw [if_neg hr]
      exact h x

theorem runEvents_loop_count_inv (evs : List Ev) :
    (∀ e ∈ evs, is_recovery e = false) →
    ∀ st : ProcState,
      (∀ x, loop_count st x ≤ 1 ∧ (x ∉ st.posted → loop_count st x = 0)) →
      ∀ x, loop_count (runEvents st evs) x ≤ 1 := by
  induction evs with
  | nil => intro _ st h x; exact (h x).1
  | cons e rest ih =>
    intro hrec st h x
    unfold runEvents at *
    rw [List.foldl_cons]
    exact ih (fun e2 he2 => hrec e2 (List.mem_cons_of_mem e he2)) _
      (procStep_loop_count_inv st e (hrec e (List.mem_cons_self e rest)) h) x

/-- C1 amended: `schedule_owner_reminder` itself performs no is-running
check — started while a loop for the id is running it overwrites the
registration without cancelling the prior loop, and a recovery-restored
loop followed by the id's first webhook post yields two concurrent loops
(see the counterexample). What does hold: without the recovery path, no
sequence of events yields two loops for one id — the webhook path creates
a loop only when the posted-set claim succeeds, which happens at most once
per id per process lifetime, and the recovery path itself skips ids already
registered as active. -/
theorem c1_amended_webhook_only_single_loop (evs : List Ev)
    (hrec : ∀ e ∈ evs, is_recovery e = false) :
    ∀ x, loop_count (runEvents procInit evs) x ≤ 1 :=
  runEvents_loop_count_inv evs hrec procInit
    (fun x => ⟨by simp [loop_count, procInit], fun _ => by simp [loop_count, procInit]⟩)

/-- Witness for the amended C1: a duplicate eligible delivery for deal "1"
after its loop started does not create a second loop. -/
theorem c1_amended_witness :
    loop_count
      (runEvents procInit
        [.webhook "1" (.got (.pBool true) .pNone (.pStr "o1")),
         .taskStarted 0,
         .webhook "1" (.got (.pBool true) .pNone (.pStr "o1"))])
      "1" ≤ 1 :=
  c1_amended_webhook_only_single_loop _ (by decide) "1"

theorem weekday_replace9 (t : Int) : weekday (replace9 t) = weekday t := by
  unfold weekday replace9 usecPerDay usecPerHour
  omega

theorem replace9_idem (t : Int) : replace9 (replace9 t) = replace9 t := by
  unfold replace9 usecPerDay usecPerHour
  omega

theorem dayEnd19_replace9 (t : Int) :
    dayEnd19 (replace9 t) = replace9 t + 10 * usecPerHour := by
  unfold dayEnd19 replace9 usecPerDay usecPerHour
  omega

theorem biz_rank_weekend (t : Int) (h : 5 ≤ weekday t) : biz_rank t = 1 := by
  unfold biz_rank
  rw [if_pos h]

theorem biz_rank_before_start (t : Int) (h1 : ¬ 5 ≤ weekday t)
    (h2 : t < replace9 t) : biz_rank t = 1 := by
  unfold biz_rank
  rw [if_neg h1, if_pos h2]

theorem biz_rank_after_end (t : Int) (h1 : ¬ 5 ≤ weekday t)
    (h2 : ¬ t < replace9 t) (h3 : dayEnd19 t ≤ t) : biz_rank t = 2 := by
  unfold biz_rank
  rw [if_neg h1, if_neg h2, if_pos h3]

theorem biz_rank_in_window (t : Int) (h1 : ¬ 5 ≤ weekday t)
    (h2 : ¬ t < replace9 t) (h3 : ¬ dayEnd19 t ≤ t) : biz_rank t = 0 := by
  unfold biz_rank
  rw [if_neg h1, if_neg h2, if_neg h3]

theorem biz_rank_le_two (t : Int) : biz_rank t ≤ 2 := by
  unfold biz_rank
  by_cases h1 : 5 ≤ weekday t
  · rw [if_pos h1]; omega
  · rw [if_neg h1]
    by_cases h2 : t < replace9 t
    · rw [if_pos h2]; omega
    · rw [if_neg h2]
      by_cases h3 : dayEnd19 t ≤ t
      · rw [if_pos h3]
      · rw [if_neg h3]; omega

theorem biz_rank_replace9 (x : Int) (h : ¬ 5 ≤ weekday (replace9 x)) :
    biz_rank (replace9 x) = 0 := by
  apply biz_rank_in_window _ h
  · rw [replace9_idem]
    omega
  · rw [dayEnd19_replace9]
    unfold usecPerHour
    omega

theorem biz_rank_replace9_le (x : Int) : biz_rank (replace9 x) ≤ 1 := by
  by_cases h : 5 ≤ weekday (replace9 x)
  · rw [biz_rank_weekend _ h]
  · rw [biz_rank_replace9 x h]
    omega

theorem weekday_next_monday (t : Int) (h : 5 ≤ weekday t) :
    weekday (next_monday_morning t) = 0 := by
  unfold next_monday_morning
  rw [weekday_replace9]
  unfold weekday usecPerDay at h ⊢
  omega

theorem biz_rank_next_monday (t : Int) (h : 5 ≤ weekday t) :
    biz_rank (next_monday_morning t) = 0 := by
  have hw := weekday_next_monday t h
  unfold next_monday_morning at hw ⊢
  exact biz_rank_replace9 _ (by omega)

theorem biz_rank_next_day_le (t : Int) : biz_rank (next_day_morning t) ≤ 1 := by
  unfold next_day_morning
  exact biz_rank_replace9_le _

theorem add_business_hours_loop_isSome :
    ∀ (fuel : Nat) (cur rem : Int), biz_measure cur rem < fuel →
      (add_business_hours_loop fuel cur rem).isSome = true := by
  intro fuel
  induction fuel with
  | zero => intro cur rem h; omega
  | succ fuel ih =>
    intro cur rem h
    rw [add_business_hours_loop]
    by_cases h0 : rem ≤ 0
    · rw [if_pos h0]; rfl
    · rw [if_neg h0]
      by_cases hw : 5 ≤ weekday cur
      · rw [if_pos hw]
        apply ih
        have r1 : biz_rank cur = 1 := biz_rank_weekend cur hw
        have r2 : biz_rank (next_monday_morning cur) = 0 := biz_rank_next_monday cur hw
        unfold biz_measure at *
        omega
      · rw [if_neg hw]
        by_cases hlt : cur < replace9 cur
        · rw [if_pos hlt]
          apply ih
          have r1 : biz_rank cur = 1 := biz_rank_before_start cur hw hlt
          have hw2 : ¬ 5 ≤ weekday (replace9 cur) := by
            rw [weekday_replace9]
            exact hw
          have r2 : biz_rank (replace9 cur) = 0 := biz_rank_replace9 cur hw2
          unfold biz_measure at *
          omega
        · rw [if_neg hlt]
          by_cases hend : dayEnd19 cur ≤ cur
          · rw [if_pos hend]
            apply ih
            have r1 : biz_rank cur = 2 := biz_rank_after_end cur hw hlt hend
            have r2 : biz_rank (next_day_morning cur) ≤ 1 := biz_rank_next_day_le cur
            unfold biz_measure at *
            omega
          · rw [if_neg hend]
            by_cases hav : rem ≤ dayEnd19 cur - cur
            · rw [if_pos hav]; rfl
            · rw [if_neg hav]
              apply ih
              have r1 : biz_rank cur = 0 := biz_rank_in_window cur hw hlt hend
              have r2 : biz_rank (dayEnd19 cur) ≤ 2 := biz_rank_le_two _
              unfold biz_measure at *
              omega

/-- C7: add_business_hours_msk terminates for every start instant and every
duration: each loop iteration either fully consumes the remaining duration
or strictly advances past a window boundary, so the fuel-indexed loop has,
for every input, a fuel on which it returns, and add_business_hours_msk
(whose fuel exceeds the measure by construction) always returns a value. -/
theorem c7_add_business_hours_terminates :
    (∀ (cur rem : Int), ∃ fuel : Nat,
        (add_business_hours_loop fuel cur rem).isSome = true) ∧
    (∀ (startUtc remUsec : Int),
        (add_business_hours_msk startUtc remUsec).isSome = true) := by
  constructor
  · intro cur rem
    exact ⟨biz_measure cur rem + 1,
      add_business_hours_loop_isSome _ cur rem (Nat.lt_succ_self _)⟩
  · intro s r
    unfold add_business_hours_msk
    have h := add_business_hours_loop_isSome (biz_measure (s + msk_offset_usec) r + 1)
      (s + msk_offset_usec) r (Nat.lt_succ_self _)
    obtain ⟨v, hv⟩ := Option.isSome_iff_exists.mp h
    rw [hv]
    rfl

/-- Witness for C6: a scan over two candidates whose fetches both fail
completes with counts summing to 2 and starts neither candidate. -/
theorem c6_transient_failures_contained_witness :
    (restore_reminders_scan [] (fun _ => WFetch.exn) ["1", "2"]).restored +
        (restore_reminders_scan [] (fun _ => WFetch.exn) ["1", "2"]).skipped +
        (restore_reminders_scan [] (fun _ => WFetch.exn) ["1", "2"]).errored = 2 ∧
    "1" ∉ (restore_reminders_scan [] (fun _ => WFetch.exn) ["1", "2"]).started := by
  have h := c6_transient_failures_contained.2.2 [] (fun _ => WFetch.exn) ["1", "2"]
  exact ⟨h.1, h.2 "1" rfl⟩
